import Mathlib

/-!
Shallow embedding of the ssd1327 display driver (src/command.rs, src/lib.rs,
src/mode/mod.rs) and proofs about its command encoding, rotation/mirror
handling, draw-area translation, init error propagation and partial-flush
engine.

u8 values are embedded as `Nat`; all bit operations of the source stay within
8 bits, so no wrap-around modelling is required.  Fallible Rust code returns
`Except`; a Rust panic (`todo!()`, slice out of bounds, `u8` underflow,
`chunks(0)`) is embedded as `Option.none`.
-/

/-- Errors of the external `display_interface` crate (the transport sink). -/
inductive DisplayError where
  | InvalidFormatError
  | BusWriteError
  | DCError
  | CSError
  | RSError
  | OutOfBoundsError
  | DataFormatNotImplemented
deriving DecidableEq, Repr

/-- Horizontal scroll direction (src/command.rs `HScrollDir`). -/
inductive HScrollDir where
  | LeftToRight
  | RightToLeft
deriving DecidableEq, Repr

/-- Discriminant of `HScrollDir` (`dir as u8`). -/
def HScrollDir.toByte : HScrollDir → Nat
  | .LeftToRight => 0
  | .RightToLeft => 1

/-- Display clock presets (src/command.rs `FrontClockDivideRatio`). -/
inductive FrontClockDivideRatio where
  | Hz80
  | Hz90
  | Hz100
  | Hz110
  | Hz120
  | Hz130
deriving DecidableEq, Repr

/-- Discriminant of `FrontClockDivideRatio` (`val as u8`). -/
def FrontClockDivideRatio.toByte : FrontClockDivideRatio → Nat
  | .Hz80 => 0xC1
  | .Hz90 => 0xE1
  | .Hz100 => 0x00
  | .Hz110 => 0x30
  | .Hz120 => 0x50
  | .Hz130 => 0x70

/-- Frame interval presets (src/command.rs `NFrames`). -/
inductive NFrames where
  | F2
  | F3
  | F4
  | F5
  | F6
  | F32
  | F64
  | F256
deriving DecidableEq, Repr

/-- Discriminant of `NFrames` (`frames as u8`). -/
def NFrames.toByte : NFrames → Nat
  | .F2 => 0b111
  | .F3 => 0b100
  | .F4 => 0b101
  | .F5 => 0b110
  | .F6 => 0b000
  | .F32 => 0b001
  | .F64 => 0b010
  | .F256 => 0b011

/-- Vcomh deselect levels (src/command.rs `VcomhLevel`). -/
inductive VcomhLevel where
  | V072
  | V082
  | V086
deriving DecidableEq, Repr

/-- Discriminant of `VcomhLevel` (`val as u8`). -/
def VcomhLevel.toByte : VcomhLevel → Nat
  | .V072 => 0b000
  | .V082 => 0b101
  | .V086 => 0b111

/-- Display mode opcodes (src/command.rs `DisplayMode`). -/
inductive DisplayMode where
  | Normal
  | AllOn
  | AllOff
  | Invert
deriving DecidableEq, Repr

/-- Discriminant of `DisplayMode` (`val as u8`). -/
def DisplayMode.toByte : DisplayMode → Nat
  | .Normal => 0xA4
  | .AllOn => 0xA5
  | .AllOff => 0xA6
  | .Invert => 0xA7

/-- Phase length presets (src/command.rs `PhaseLength`). -/
inductive PhaseLength where
  | PhaseReset
  | PhasePreCharge
  | PhaseAuto
deriving DecidableEq, Repr

/-- Discriminant of `PhaseLength` (`val as u8`). -/
def PhaseLength.toByte : PhaseLength → Nat
  | .PhaseReset => 0x0F
  | .PhasePreCharge => 0xF0
  | .PhaseAuto => 0xF1

/-- Pre-charge voltage levels (src/command.rs `PreChargeVoltageLevel`). -/
inductive PreChargeVoltageLevel where
  | V020
  | V050
  | V0613
  | Vcomh
deriving DecidableEq, Repr

/-- Discriminant of `PreChargeVoltageLevel` (`val as u8`). -/
def PreChargeVoltageLevel.toByte : PreChargeVoltageLevel → Nat
  | .V020 => 0x00
  | .V050 => 0x05
  | .V0613 => 0x07
  | .Vcomh => 0x08

/-- `bool as u8`. -/
def boolByte (b : Bool) : Nat := if b then 1 else 0

/-- SSD1327 commands (src/command.rs `Command`).  `u8` parameters become
`Nat`; the source variant `SetGPIO` is spelled `SetGpio` here. -/
inductive Command where
  | ColumnAddress (start stop : Nat)
  | RowAddress (start stop : Nat)
  | Contrast (val : Nat)
  | Noop
  | Remap (val : Nat)
  | DisplayStartLine (val : Nat)
  | DisplayOffset (val : Nat)
  | DisplayMode (val : DisplayMode)
  | MultiplexRatio (val : Nat)
  | VoltageRegulator (val : Bool)
  | DisplayOn (o : Bool)
  | PhaseLength (val : PhaseLength)
  | FrontClockDivideRatio (val : FrontClockDivideRatio)
  | SetGpio (val : Nat)
  | SecondPreChargePeriod (val : Nat)
  | GrayScaleTable (val : Nat)
  | DefaultLinearGrayScaleTable
  | PreChargeVoltage (val : PreChargeVoltageLevel)
  | VcomhVoltage (val : VcomhLevel)
  | FunctionSelectionB (val : Nat)
  | CommandLock (val : Bool)
  | HorizontalScrollSetup (dir : HScrollDir)
      (col_start col_end row_start row_end : Nat) (frames : NFrames)
  | EnableScroll (enable : Bool)
deriving DecidableEq, Repr

/-- The encoding step of `Command::send` (src/command.rs lines 107-149): a
fixed 7-byte array plus the real length.  `Command::Noop` is `todo!()` in the
source, i.e. a panic, embedded as `none`. -/
def Command.encode : Command → Option (List Nat × Nat)
  | .ColumnAddress start stop => some ([0x15, start, stop, 0, 0, 0, 0], 3)
  | .RowAddress start stop => some ([0x75, start, stop, 0, 0, 0, 0], 3)
  | .Contrast val => some ([0x81, val, 0, 0, 0, 0, 0], 2)
  | .Remap val => some ([0xA0, val, 0, 0, 0, 0, 0], 2)
  | .DisplayStartLine val => some ([0xA1, val, 0, 0, 0, 0, 0], 2)
  | .DisplayOffset val => some ([0xA2, val, 0, 0, 0, 0, 0], 2)
  | .DisplayMode val => some ([(0xA7 &&& val.toByte) ||| 0xA4, 0, 0, 0, 0, 0, 0], 1)
  | .MultiplexRatio val => some ([0xA8, val, 0, 0, 0, 0, 0], 2)
  | .VoltageRegulator val => some ([0xAB, boolByte val, 0, 0, 0, 0, 0], 2)
  | .DisplayOn o => some ([0xAE ||| boolByte o, 0, 0, 0, 0, 0, 0], 1)
  | .PhaseLength val => some ([0xB1, val.toByte, 0, 0, 0, 0, 0], 2)
  | .FrontClockDivideRatio val => some ([0xB3, val.toByte, 0, 0, 0, 0, 0], 2)
  | .SetGpio val => some ([0xB5, val, 0, 0, 0, 0, 0], 2)
  | .SecondPreChargePeriod val => some ([0xB6, val, 0, 0, 0, 0, 0], 2)
  | .GrayScaleTable val => some ([0xB8, val &&& 0xF, 0, 0, 0, 0, 0], 2)
  | .DefaultLinearGrayScaleTable => some ([0xB9, 0, 0, 0, 0, 0, 0], 1)
  | .PreChargeVoltage val => some ([0xBC, val.toByte, 0, 0, 0, 0, 0], 2)
  | .VcomhVoltage val => some ([0xBE, val.toByte, 0, 0, 0, 0, 0], 2)
  | .FunctionSelectionB val => some ([0xD5, val, 0, 0, 0, 0, 0], 2)
  | .CommandLock val => some ([0xFD, (boolByte val <<< 2) ||| 0x12, 0, 0, 0, 0, 0], 2)
  | .HorizontalScrollSetup dir col_start col_end row_start row_end frames =>
      some ([0x26 ||| dir.toByte, 0, row_start &&& 0x7F, frames.toByte,
             row_end &&& 0x7F, col_start &&& 0x3F, col_end &&& 0x3F], 7)
  | .EnableScroll enable => some ([0x2E ||| boolByte enable, 0, 0, 0, 0, 0, 0], 1)
  | .Noop => none

/-- Runs a straight-line sequence of `Command::send` calls (the `?`-chained
style of src/lib.rs).  The transport sink is modelled by a failure schedule
`sched`: `sched n = some e` means the n-th transmission fails with error `e`.
Returns `none` on a panic (a `Command::Noop` reached), otherwise the list of
successfully delivered command payloads (`bytes[0..len]`) together with the
first transport error, if any; commands after a failed send are not
attempted. -/
def runCmds (sched : Nat → Option DisplayError) :
    List Command → Nat → Option (List (List Nat) × Option DisplayError)
  | [], _ => some ([], none)
  | c :: cs, n =>
    match Command.encode c with
    | none => none
    | some (arr, len) =>
      match sched n with
      | some e => some ([], some e)
      | none =>
        match runCmds sched cs (n + 1) with
        | none => none
        | some (tr, r) => some (arr.take len :: tr, r)

/-- Display rotation (src/rotation.rs, variants as used throughout src/lib.rs). -/
inductive DisplayRotation where
  | Rotate0
  | Rotate90
  | Rotate180
  | Rotate270
deriving DecidableEq, Repr

/-- Embedding of `Ssd1327::set_rotation` (src/lib.rs lines 294-326): returns
the commands sent and the new stored rotation (`self.rotation = rotation`).
The source also computes an unused `_remap_flags` binding in the `Rotate0`
arm; it has no effect and is omitted. -/
def set_rotation (rotation : DisplayRotation) : List Command × DisplayRotation :=
  (match rotation with
   | .Rotate0 => [Command.Remap 0b01011100, Command.DisplayStartLine 0x00]
   | .Rotate90 => [Command.Remap 0b01011000, Command.DisplayStartLine 0x00]
   | .Rotate180 => [Command.Remap 0b00010101, Command.DisplayStartLine 0x00]
   | .Rotate270 => [Command.Remap 0b00010111, Command.DisplayStartLine 0x78],
   rotation)

/-- Embedding of `Ssd1327::set_mirror` (src/lib.rs lines 329-353): given the
mirror flag and the stored rotation, returns the commands sent and the stored
rotation afterwards (`set_mirror` never assigns `self.rotation` itself; the
`false` branch calls `set_rotation(self.rotation)`). -/
def set_mirror (mirror : Bool) (rotation : DisplayRotation) :
    List Command × DisplayRotation :=
  if mirror then
    (match rotation with
     | .Rotate0 => [Command.Remap 0b01011110, Command.DisplayStartLine 0x00]
     | .Rotate90 => [Command.Remap 0b01011000, Command.DisplayStartLine 0x00]
     | .Rotate180 => [Command.Remap 0b00010101, Command.DisplayStartLine 0x00]
     | .Rotate270 => [Command.Remap 0b00010111, Command.DisplayStartLine 0x78],
     rotation)
  else set_rotation rotation

/-- Embedding of `Ssd1327::set_draw_area` (src/lib.rs lines 370-375).  Rust
`u8::saturating_sub(1)` coincides with truncated subtraction on `Nat`. -/
def set_draw_area (start stop : Nat × Nat) : List Command :=
  [Command.ColumnAddress start.1 (stop.1 - 1),
   Command.RowAddress start.2 (stop.2 - 1)]

/-- One transmission on the command/data sink: either a command payload
(`send_commands`) or a data payload (`send_data`). -/
inductive Transmission where
  | cmd (bytes : List Nat)
  | data (bytes : List Nat)
deriving DecidableEq, Repr

/-- The command-class transmissions produced by sending a command list with a
never-failing sink; `none` models a panic (`Command::Noop`). -/
def cmdTrace : List Command → Option (List Transmission)
  | [] => some []
  | c :: cs =>
    match Command.encode c, cmdTrace cs with
    | some (arr, len), some ts => some (Transmission.cmd (arr.take len) :: ts)
    | _, _ => none

/-- Embedding of `Ssd1327::draw` (src/lib.rs line 255-257): sends the raw
buffer as one data write. -/
def draw (buffer : List Nat) : List Transmission :=
  [Transmission.data buffer]

/-- Embedding of `BasicMode::clear` (src/mode/mod.rs lines 33-38): the full
trace it produces with a never-failing sink — `set_draw_area((1,1),(128,128))`
followed by `draw(&[0u8; 2048])`. -/
def clear : Option (List Transmission) :=
  (cmdTrace (set_draw_area (1, 1) (128, 128))).map
    (fun t => t ++ draw (List.replicate 2048 0))

/-- Embedding of `Ssd1327::set_brightness` (src/lib.rs lines 356-359): the two
commands it sends, parameterized by the brightness fields. -/
def brightnessCmds (precharge contrast : Nat) : List Command :=
  [Command.SecondPreChargePeriod precharge, Command.Contrast contrast]

/-- Modelled from the spec: the command sequence of `Ssd1327::init_basic`
(src/lib.rs lines 203-231).  Two pieces of this repository are not present
under src/: `size.rs` (`DisplaySize::configure`, called at line 209) and
`brightness.rs` (`Brightness::default()`, used at line 219).  Per the spec,
`configure` programs size/addressing registers through the same fallible
interface; it is modelled as an arbitrary command list `sizeCmds`, and the
default brightness fields as parameters `precharge`/`contrast`.  Everything
else is the literal sequence of src/lib.rs. -/
def initCmds (sizeCmds : List Command) (rotation : DisplayRotation)
    (precharge contrast : Nat) : List Command :=
  [Command.DisplayOn false] ++ sizeCmds ++ (set_rotation rotation).1 ++
  [Command.DisplayOffset 0x00,
   Command.DisplayMode DisplayMode.Normal,
   Command.PhaseLength PhaseLength.PhaseAuto,
   Command.FrontClockDivideRatio FrontClockDivideRatio.Hz100,
   Command.VoltageRegulator true] ++
  brightnessCmds precharge contrast ++
  [Command.VcomhVoltage VcomhLevel.V082,
   Command.PreChargeVoltage PreChargeVoltageLevel.V050,
   Command.FunctionSelectionB 0x62,
   Command.CommandLock false,
   Command.HorizontalScrollSetup HScrollDir.LeftToRight 0 0x3F 0 0x7F NFrames.F2,
   Command.EnableScroll false,
   Command.DisplayOn true]

/-- Embedding of `Ssd1327::init_basic` run against a failure schedule: every
command of the bring-up sequence is sent through the `?` operator, so the
run stops at the first transport error. -/
def init_basic (sched : Nat → Option DisplayError) (sizeCmds : List Command)
    (rotation : DisplayRotation) (precharge contrast : Nat) :
    Option (List (List Nat) × Option DisplayError) :=
  runCmds sched (initCmds sizeCmds rotation precharge contrast) 0

/-- Traverses a list under `Option`, failing if any element fails. -/
def optionTraverse {α β : Type} (f : α → Option β) : List α → Option (List β)
  | [] => some []
  | a :: l =>
    match f a, optionTraverse f l with
    | some b, some bs => some (b :: bs)
    | _, _ => none

/-- Rust slice indexing `&s[a..b]`: panics (`none`) unless `a ≤ b ≤ s.len()`. -/
def sliceRange (s : List Nat) (a b : Nat) : Option (List Nat) :=
  if a ≤ b ∧ b ≤ s.length then some ((s.drop a).take (b - a)) else none

/-- Fuel-indexed worker for `listChunks`; the fuel is an upper bound on the
list length, so the definition is structural and computes by `decide`. -/
def chunksGo : Nat → List Nat → Nat → List (List Nat)
  | _, [], _ => []
  | 0, _ :: _, _ => []
  | fuel + 1, x :: xs, k => (x :: xs).take k :: chunksGo fuel ((x :: xs).drop k) k

/-- Rust `slice::chunks(k)`: splits into consecutive chunks of `k` bytes, the
last chunk possibly shorter.  Meaningful for `k ≥ 1`; `chunks(0)` panics in
Rust and every caller below guards it with `none`. -/
def listChunks (l : List Nat) (k : Nat) : List (List Nat) :=
  chunksGo l.length l k

/-- The sequence of data writes produced by `flush_buffer_chunks`
(src/lib.rs lines 394-418) with a never-failing sink: chunk the buffer into
`disp_width`-byte pages, skip `starting_page = upper_left.1/8` of them, take
`num_pages = (lower_right.1 - upper_left.1)/8 + 1`, and slice each to the
column range `[upper_left.0, lower_right.0)`.  `none` models the panics of
the source: `chunks(0)`, `u8` subtraction underflow, slice out of bounds. -/
def flushWrites (buffer : List Nat) (disp_width : Nat)
    (upper_left lower_right : Nat × Nat) : Option (List (List Nat)) :=
  if disp_width = 0 then none
  else if lower_right.2 < upper_left.2 then none
  else
    optionTraverse (fun s => sliceRange s upper_left.1 lower_right.1)
      (((listChunks buffer disp_width).drop (upper_left.2 / 8)).take
        ((lower_right.2 - upper_left.2) / 8 + 1))

/-- The `try_for_each` loop of `flush_buffer_chunks` against a failure
schedule: slices the current page (panicking if out of bounds), sends it,
stops at the first transport error. -/
def flushSend (sched : Nat → Option DisplayError) (lo hi : Nat) :
    Nat → List (List Nat) → Option (Except DisplayError Unit)
  | _, [] => some (Except.ok ())
  | n, s :: ss =>
    match sliceRange s lo hi with
    | none => none
    | some _ =>
      match sched n with
      | some e => some (Except.error e)
      | none => flushSend sched lo hi (n + 1) ss

/-- Embedding of `Ssd1327::flush_buffer_chunks` (src/lib.rs lines 394-418)
run against a failure schedule: `none` is a panic, otherwise the `Result`
the function returns (the sink's result). -/
def flush_buffer_chunks (sched : Nat → Option DisplayError)
    (buffer : List Nat) (disp_width : Nat)
    (upper_left lower_right : Nat × Nat) : Option (Except DisplayError Unit) :=
  if disp_width = 0 then none
  else if lower_right.2 < upper_left.2 then none
  else
    flushSend sched upper_left.1 lower_right.1 0
      (((listChunks buffer disp_width).drop (upper_left.2 / 8)).take
        ((lower_right.2 - upper_left.2) / 8 + 1))

/-- Sends a list of already-sliced data writes against a failure schedule,
stopping at the first error (pure view of `try_for_each`). -/
def trySendData (sched : Nat → Option DisplayError) :
    Nat → List (List Nat) → Except DisplayError Unit
  | _, [] => Except.ok ()
  | n, _ :: cs =>
    match sched n with
    | some e => Except.error e
    | none => trySendData sched (n + 1) cs

/-- The fuel of `chunksGo` is irrelevant once it dominates the list length
(for positive chunk size). -/
theorem chunksGo_eq_of_le {k : Nat} (hk : 0 < k) :
    ∀ (f1 : Nat) (f2 : Nat) (l : List Nat), l.length ≤ f1 → l.length ≤ f2 →
      chunksGo f1 l k = chunksGo f2 l k := by
  intro f1
  induction f1 with
  | zero =>
    intro f2 l h1 _
    have : l = [] := List.eq_nil_of_length_eq_zero (Nat.le_zero.mp h1)
    subst this
    cases f2 <;> rfl
  | succ f ih =>
    intro f2 l h1 h2
    cases l with
    | nil => cases f2 <;> rfl
    | cons x xs =>
      cases f2 with
      | zero => simp at h2
      | succ g =>
        show (x :: xs).take k :: chunksGo f ((x :: xs).drop k) k
            = (x :: xs).take k :: chunksGo g ((x :: xs).drop k) k
        have hd : ((x :: xs).drop k).length ≤ xs.length := by
          simp only [List.length_drop, List.length_cons]
          omega
        have h1' : ((x :: xs).drop k).length ≤ f := by
          have := Nat.le_of_succ_le_succ h1
          omega
        have h2' : ((x :: xs).drop k).length ≤ g := by
          have := Nat.le_of_succ_le_succ h2
          omega
        rw [ih g ((x :: xs).drop k) h1' h2']

/-- Unfolding rule of `listChunks` on a nonempty list, for positive chunk
size: peel one chunk and recurse on the rest. -/
theorem listChunks_cons {k : Nat} (hk : 0 < k) (x : Nat) (xs : List Nat) :
    listChunks (x :: xs) k = (x :: xs).take k :: listChunks ((x :: xs).drop k) k := by
  show chunksGo (xs.length + 1) (x :: xs) k = _
  show (x :: xs).take k :: chunksGo xs.length ((x :: xs).drop k) k = _
  unfold listChunks
  have hd : ((x :: xs).drop k).length ≤ xs.length := by
    simp only [List.length_drop, List.length_cons]
    omega
  rw [chunksGo_eq_of_le hk xs.length ((x :: xs).drop k).length ((x :: xs).drop k) hd
    (Nat.le_refl _)]

/-- `listChunks` of the empty list is empty. -/
theorem listChunks_nil (k : Nat) : listChunks [] k = [] := rfl

/-- Dropping `n` chunks is chunking after dropping `n * k` elements. -/
theorem listChunks_drop {k : Nat} (hk : 0 < k) :
    ∀ (n : Nat) (l : List Nat),
      (listChunks l k).drop n = listChunks (l.drop (n * k)) k := by
  intro n
  induction n with
  | zero => intro l; simp
  | succ n ih =>
    intro l
    cases l with
    | nil => simp [listChunks_nil]
    | cons x xs =>
      rw [listChunks_cons hk]
      show (listChunks ((x :: xs).drop k) k).drop n = _
      rw [ih ((x :: xs).drop k), List.drop_drop]
      have h2 : k + n * k = (n + 1) * k := by ring
      rw [h2]

/-- Taking `n` chunks, when the list holds at least `n * k` elements, yields
exactly the rows `l[i*k .. i*k+k)` for `i < n`. -/
theorem listChunks_take {k : Nat} (hk : 0 < k) :
    ∀ (n : Nat) (l : List Nat), n * k ≤ l.length →
      (listChunks l k).take n
        = (List.range n).map (fun i => (l.drop (i * k)).take k) := by
  intro n
  induction n with
  | zero => intro l _; simp
  | succ n ih =>
    intro l h
    have hkl : k ≤ l.length := by
      have : k ≤ (n + 1) * k := by
        calc k = 1 * k := (Nat.one_mul k).symm
        _ ≤ (n + 1) * k := Nat.mul_le_mul_right k (by omega)
      omega
    cases l with
    | nil => simp at hkl; omega
    | cons x xs =>
      rw [listChunks_cons hk]
      show (x :: xs).take k :: (listChunks ((x :: xs).drop k) k).take n = _
      have hlen : n * k ≤ ((x :: xs).drop k).length := by
        simp only [List.length_drop, List.length_cons]
        have : (n + 1) * k = n * k + k := by ring
        rw [this] at h
        simp only [List.length_cons] at h
        omega
      rw [ih ((x :: xs).drop k) hlen]
      rw [List.range_succ_eq_map]
      simp only [List.map_cons, Nat.zero_mul, List.drop_zero, List.map_map]
      refine congrArg₂ _ rfl ?_
      apply List.map_congr_left
      intro i _
      simp only [Function.comp_apply, List.drop_drop, Nat.succ_eq_add_one]
      have h3 : k + i * k = (i + 1) * k := by ring
      rw [h3]

/-- `optionTraverse` succeeds with the mapped list when `f` succeeds
pointwise. -/
theorem optionTraverse_eq_map {α β : Type} (f : α → Option β) (g : α → β) :
    ∀ l : List α, (∀ x ∈ l, f x = some (g x)) →
      optionTraverse f l = some (l.map g) := by
  intro l
  induction l with
  | nil => intro _; rfl
  | cons a l ih =>
    intro h
    have ha : f a = some (g a) := h a (List.mem_cons_self a l)
    have hl : optionTraverse f l = some (l.map g) :=
      ih (fun x hx => h x (List.mem_cons_of_mem a hx))
    show (match f a, optionTraverse f l with
      | some b, some bs => some (b :: bs)
      | _, _ => none) = _
    rw [ha, hl]
    rfl

/-- C1 (counterexample): the claim that `Command::send` pre-masks every
numeric parameter — in particular that a 6-bit column address parameter is
always masked to 0-63 — is false: `Command::ColumnAddress(64, 64)` encodes
with the out-of-range value 64 placed in the output bytes unmasked. -/
theorem columnAddress_not_masked_cex :
    Command.encode (Command.ColumnAddress 64 64)
      = some ([0x15, 64, 64, 0, 0, 0, 0], 3) ∧ ¬ (64 ≤ (63 : Nat)) := by
  constructor
  · rfl
  · decide

/-- C1 (amended): `Command::send` masks only the parameters the source masks:
`GrayScaleTable`'s value to 4 bits (so the output byte is at most 15) and
`HorizontalScrollSetup`'s row parameters to 7 bits (at most 127) and column
parameters to 6 bits (at most 63); the parameters of `ColumnAddress` are
placed in the output bytes unmasked.  Out-of-range inputs are truncated where
masking exists and never rejected with an error. -/
theorem command_masking_amended (dir : HScrollDir) (frames : NFrames)
    (cs ce rs re v : Nat) :
    Command.encode (Command.HorizontalScrollSetup dir cs ce rs re frames)
      = some ([0x26 ||| dir.toByte, 0, rs &&& 0x7F, frames.toByte,
               re &&& 0x7F, cs &&& 0x3F, ce &&& 0x3F], 7)
    ∧ rs &&& 0x7F ≤ 127 ∧ re &&& 0x7F ≤ 127
    ∧ cs &&& 0x3F ≤ 63 ∧ ce &&& 0x3F ≤ 63
    ∧ Command.encode (Command.GrayScaleTable v)
        = some ([0xB8, v &&& 0xF, 0, 0, 0, 0, 0], 2)
    ∧ v &&& 0xF ≤ 15
    ∧ Command.encode (Command.ColumnAddress cs ce)
        = some ([0x15, cs, ce, 0, 0, 0, 0], 3) :=
  ⟨rfl, Nat.and_le_right, Nat.and_le_right, Nat.and_le_right,
   Nat.and_le_right, rfl, Nat.and_le_right, rfl⟩

/-- C2: for all `a`, `b` in 0-255, `Command::ColumnAddress(a, b)` encodes to
exactly the 7-byte array `[0x15, a, b, 0, 0, 0, 0]` with reported length 3;
the values are carried through unmasked. -/
theorem columnAddress_encode (a b : Nat) (ha : a ≤ 255) (hb : b ≤ 255) :
    Command.encode (Command.ColumnAddress a b)
      = some ([0x15, a, b, 0, 0, 0, 0], 3) := rfl

/-- C2 (witness): the theorem applied at the concrete out-of-6-bit-range
input (64, 200). -/
theorem columnAddress_encode_witness :
    64 ≤ 255 ∧ 200 ≤ 255 ∧
    Command.encode (Command.ColumnAddress 64 200)
      = some ([0x15, 64, 200, 0, 0, 0, 0], 3) :=
  ⟨by decide, by decide, columnAddress_encode 64 200 (by decide) (by decide)⟩

/-- C3 (counterexample): the claim that the encoding step of `Command::send`
is total for every variant is false: `Command::Noop` hits `todo!()`
(src/command.rs line 148), a panic, embedded as `none`. -/
theorem encode_noop_none : Command.encode Command.Noop = none := rfl

/-- C3 (amended): for every `Command` variant except `Noop`, the encoding
step is total and deterministic, yielding a 7-byte array and a length between
1 and 7, so for those commands the only possible failure of `send` is the
transport error returned by the sink. -/
theorem encode_total_amended (c : Command) (h : c ≠ Command.Noop) :
    ∃ bytes len, Command.encode c = some (bytes, len)
      ∧ bytes.length = 7 ∧ 1 ≤ len ∧ len ≤ 7 := by
  cases c <;> first
    | exact absurd rfl h
    | exact ⟨_, _, rfl, rfl, by decide, by decide⟩

/-- C3 (witness): the amended theorem applied at `Command::Contrast 0x7F`. -/
theorem encode_total_amended_witness :
    Command.Contrast 0x7F ≠ Command.Noop ∧
    ∃ bytes len, Command.encode (Command.Contrast 0x7F) = some (bytes, len)
      ∧ bytes.length = 7 ∧ 1 ≤ len ∧ len ≤ 7 :=
  ⟨by decide, encode_total_amended (Command.Contrast 0x7F) (by decide)⟩

/-- C6: for every start/end coordinate pair, `set_draw_area` sends a
`ColumnAddress` command whose end byte is `end.x - 1` and a `RowAddress`
command whose end byte is `end.y - 1` (truncated subtraction, exactly the
`u8::saturating_sub(1)` of the source), translating the caller's exclusive
bounds into the chip's inclusive window semantics for all inputs. -/
theorem set_draw_area_translates_end (start stop : Nat × Nat) :
    runCmds (fun _ => none) (set_draw_area start stop) 0
      = some ([[0x15, start.1, stop.1 - 1], [0x75, start.2, stop.2 - 1]],
              none) := rfl

/-- C7 (counterexample): the claim that for stored rotations 0 and 180 the
mirror transform sends the plain rotation's remap pattern with the
column-remap bit (bit 0) flipped is false: at `Rotate180` the mirror pattern
0x15 is byte-for-byte identical to the plain one (no bit differs), and at
`Rotate0` the mirror pattern 0x5E differs from the plain 0x5C in bit 1, not
in the column-remap bit 0. -/
theorem set_mirror_bit_cex :
    (set_mirror true DisplayRotation.Rotate180).1
      = [Command.Remap 0x15, Command.DisplayStartLine 0x00]
    ∧ (set_rotation DisplayRotation.Rotate180).1
      = [Command.Remap 0x15, Command.DisplayStartLine 0x00]
    ∧ (0x15 : Nat) ^^^ (1 <<< 0) ≠ 0x15
    ∧ (set_mirror true DisplayRotation.Rotate0).1
      = [Command.Remap 0x5E, Command.DisplayStartLine 0x00]
    ∧ (set_rotation DisplayRotation.Rotate0).1
      = [Command.Remap 0x5C, Command.DisplayStartLine 0x00]
    ∧ (0x5E : Nat) ≠ 0x5C ^^^ (1 <<< 0) := by
  refine ⟨rfl, rfl, by decide, rfl, rfl, by decide⟩

/-- C7 (amended): at stored rotation 0 `set_mirror(true)` sends the plain
remap pattern with bit 1 (the nibble-remap bit) flipped; at stored rotation
180 it sends a pattern identical to the plain rotation's; in both cases the
stored rotation value is unchanged, and `set_mirror(false)` sends exactly the
commands `set_rotation` sends for the current rotation. -/
theorem set_mirror_amended :
    (set_mirror true DisplayRotation.Rotate0).1
      = [Command.Remap (0x5C ^^^ (1 <<< 1)), Command.DisplayStartLine 0x00]
    ∧ (set_mirror true DisplayRotation.Rotate180).1
      = (set_rotation DisplayRotation.Rotate180).1
    ∧ (∀ r, (set_mirror true r).2 = r)
    ∧ (∀ r, set_mirror false r = set_rotation r) := by
  refine ⟨by decide, rfl, ?_, ?_⟩
  · intro r; cases r <;> rfl
  · intro r; cases r <;> rfl

/-- C9: in Basic mode, `clear()` first programs the address window to
((1,1),(128,128)) via `set_draw_area` — sending `ColumnAddress(1, 127)` and
`RowAddress(1, 127)` — and then writes an all-zero data buffer of exactly
2048 bytes. -/
theorem clear_trace_spec :
    clear = some [Transmission.cmd [0x15, 1, 127],
                  Transmission.cmd [0x75, 1, 127],
                  Transmission.data (List.replicate 2048 0)]
    ∧ (List.replicate 2048 (0 : Nat)).length = 2048
    ∧ ∀ b ∈ List.replicate 2048 (0 : Nat), b = 0 := by
  refine ⟨rfl, by rw [List.length_replicate], ?_⟩
  intro b hb
  exact List.eq_of_mem_replicate hb

/-- If every command of a straight-line sequence encodes (no `Noop`), and the
schedule first fails at relative index `k` within the sequence, then the run
stops there: it returns that very error and exactly the first `k` payloads
were delivered. -/
theorem runCmds_first_error (sched : Nat → Option DisplayError)
    (e : DisplayError) :
    ∀ (cmds : List Command) (n k : Nat),
      (∀ c ∈ cmds, (Command.encode c).isSome) →
      k < cmds.length →
      (∀ i, i < k → sched (n + i) = none) →
      sched (n + k) = some e →
      ∃ tr, runCmds sched cmds n = some (tr, some e) ∧ tr.length = k := by
  intro cmds
  induction cmds with
  | nil =>
    intro n k _ hk _ _
    simp at hk
  | cons c cs ih =>
    intro n k henc hk hok hf
    obtain ⟨p, hp⟩ := Option.isSome_iff_exists.mp (henc c (List.mem_cons_self c cs))
    obtain ⟨arr, len⟩ := p
    cases k with
    | zero =>
      have hn : sched n = some e := by
        have := hf
        rwa [Nat.add_zero] at this
      refine ⟨[], ?_, rfl⟩
      show (match Command.encode c with
        | none => none
        | some (arr, len) =>
          match sched n with
          | some e => some ([], some e)
          | none =>
            match runCmds sched cs (n + 1) with
            | none => none
            | some (tr, r) => some (arr.take len :: tr, r)) = _
      rw [hp, hn]
    | succ k =>
      have hn : sched n = none := by
        have := hok 0 (Nat.succ_pos k)
        rwa [Nat.add_zero] at this
      have hok' : ∀ i, i < k → sched (n + 1 + i) = none := by
        intro i hi
        have h2 : n + 1 + i = n + (i + 1) := by omega
        rw [h2]
        exact hok (i + 1) (Nat.succ_lt_succ hi)
      have hf' : sched (n + 1 + k) = some e := by
        have h3 : n + 1 + k = n + (k + 1) := by omega
        rw [h3]
        exact hf
      have hk' : k < cs.length := Nat.lt_of_succ_lt_succ hk
      have henc' : ∀ x ∈ cs, (Command.encode x).isSome :=
        fun x hx => henc x (List.mem_cons_of_mem c hx)
      obtain ⟨tr, htr, hlen⟩ := ih (n + 1) k henc' hk' hok' hf'
      refine ⟨arr.take len :: tr, ?_, by simp [hlen]⟩
      show (match Command.encode c with
        | none => none
        | some (arr, len) =>
          match sched n with
          | some e => some ([], some e)
          | none =>
            match runCmds sched cs (n + 1) with
            | none => none
            | some (tr, r) => some (arr.take len :: tr, r)) = _
      rw [hp, hn, htr]

/-- Every command of the `init_basic` bring-up sequence encodes, provided the
(spec-modelled) size-configuration commands do. -/
theorem initCmds_encode_isSome (sizeCmds : List Command)
    (rotation : DisplayRotation) (precharge contrast : Nat)
    (h : ∀ x ∈ sizeCmds, (Command.encode x).isSome) :
    ∀ x ∈ initCmds sizeCmds rotation precharge contrast,
      (Command.encode x).isSome := by
  unfold initCmds
  refine List.forall_mem_append.mpr ⟨?_, by decide⟩
  refine List.forall_mem_append.mpr ⟨?_, ?_⟩
  · refine List.forall_mem_append.mpr ⟨?_, by decide⟩
    refine List.forall_mem_append.mpr ⟨?_, ?_⟩
    · exact List.forall_mem_append.mpr ⟨by decide, h⟩
    · cases rotation <;> decide
  · intro x hx
    simp only [brightnessCmds, List.mem_cons, List.not_mem_nil, or_false] at hx
    rcases hx with rfl | rfl <;> rfl

/-- C8: during `init_basic`, if the transport sink fails on any single
command of the bring-up sequence (the first failure being at position `k`,
with some error `e`), no further commands of the sequence are sent — exactly
the `k` earlier payloads were delivered — and the transport error is returned
unchanged to the caller.  The size-configuration commands and default
brightness fields are spec-modelled parameters (their source files are not
under src/); the only assumption on them is that the size commands encode
(none is `Noop`). -/
theorem init_basic_abort (sched : Nat → Option DisplayError)
    (sizeCmds : List Command) (rotation : DisplayRotation)
    (precharge contrast : Nat) (e : DisplayError) (k : Nat)
    (henc : ∀ x ∈ sizeCmds, (Command.encode x).isSome)
    (hk : k < (initCmds sizeCmds rotation precharge contrast).length)
    (hok : ∀ i, i < k → sched i = none)
    (hf : sched k = some e) :
    ∃ tr, init_basic sched sizeCmds rotation precharge contrast
        = some (tr, some e) ∧ tr.length = k := by
  have hok' : ∀ i, i < k → sched (0 + i) = none := by
    intro i hi
    rw [Nat.zero_add]
    exact hok i hi
  have hf' : sched (0 + k) = some e := by
    rw [Nat.zero_add]
    exact hf
  exact runCmds_first_error sched e
    (initCmds sizeCmds rotation precharge contrast) 0 k
    (initCmds_encode_isSome sizeCmds rotation precharge contrast henc)
    hk hok' hf'

/-- C8 (witness): the theorem applied with one concrete size-configuration
command, rotation 0, brightness fields (4, 0x7F), and a schedule whose first
failure is a `BusWriteError` at transmission index 3 (the display-offset
command): exactly 3 payloads go out and the error surfaces unchanged. -/
theorem init_basic_abort_witness :
    (∀ x ∈ [Command.MultiplexRatio 0x7F], (Command.encode x).isSome)
    ∧ 3 < (initCmds [Command.MultiplexRatio 0x7F] DisplayRotation.Rotate0
        4 0x7F).length
    ∧ (∀ i, i < 3 →
        (fun n => if n = 3 then some DisplayError.BusWriteError else none) i
          = none)
    ∧ (fun n => if n = 3 then some DisplayError.BusWriteError else none) 3
        = some DisplayError.BusWriteError
    ∧ ∃ tr, init_basic
        (fun n => if n = 3 then some DisplayError.BusWriteError else none)
        [Command.MultiplexRatio 0x7F] DisplayRotation.Rotate0 4 0x7F
        = some (tr, some DisplayError.BusWriteError) ∧ tr.length = 3 :=
  ⟨by decide, by decide, by decide, rfl,
   init_basic_abort
     (fun n => if n = 3 then some DisplayError.BusWriteError else none)
     [Command.MultiplexRatio 0x7F] DisplayRotation.Rotate0 4 0x7F
     DisplayError.BusWriteError 3 (by decide) (by decide) (by decide) rfl⟩

/-- C4: for a buffer that contains the selected pages as full `stride`-byte
rows (and corner points satisfying `upper_left ≤ lower_right` per axis with
`lower_right.x ≤ stride`, as the claim's phrase "that page's stride-byte row"
presupposes), `flush_buffer_chunks` computes `starting_page = upper_left.y/8`
and `num_pages = (lower_right.y - upper_left.y)/8 + 1` and produces, in page
order, one data write per page holding exactly the column sub-range
`[upper_left.x, lower_right.x)` of that page's `stride`-byte row. -/
theorem flushWrites_page_range (buffer : List Nat) (stride : Nat)
    (upper_left lower_right : Nat × Nat)
    (hw : 0 < stride)
    (hy : upper_left.2 ≤ lower_right.2)
    (hx : upper_left.1 ≤ lower_right.1)
    (hxw : lower_right.1 ≤ stride)
    (hlen : (upper_left.2 / 8 + ((lower_right.2 - upper_left.2) / 8 + 1))
        * stride ≤ buffer.length) :
    flushWrites buffer stride upper_left lower_right
      = some ((List.range ((lower_right.2 - upper_left.2) / 8 + 1)).map
          (fun i =>
            (((buffer.drop ((upper_left.2 / 8 + i) * stride)).take
                stride).drop upper_left.1).take
              (lower_right.1 - upper_left.1))) := by
  set sp := upper_left.2 / 8 with hsp
  set np := (lower_right.2 - upper_left.2) / 8 + 1 with hnp
  have hmul : (sp + np) * stride = sp * stride + np * stride :=
    Nat.add_mul sp np stride
  have hlen2 : np * stride ≤ (buffer.drop (sp * stride)).length := by
    rw [List.length_drop]
    omega
  have hdrop := listChunks_drop hw sp buffer
  have htake := listChunks_take hw np (buffer.drop (sp * stride)) hlen2
  have hpages : (List.range np).map
        (fun i => ((buffer.drop (sp * stride)).drop (i * stride)).take stride)
      = (List.range np).map
        (fun i => (buffer.drop ((sp + i) * stride)).take stride) := by
    apply List.map_congr_left
    intro i _
    rw [List.drop_drop]
    have h4 : i * stride + sp * stride = (sp + i) * stride := by ring
    have h5 : sp * stride + i * stride = (sp + i) * stride := by ring
    first
      | rw [h4]
      | rw [h5]
  have hslices : ∀ s ∈ (List.range np).map
        (fun i => (buffer.drop ((sp + i) * stride)).take stride),
      sliceRange s upper_left.1 lower_right.1
        = some ((s.drop upper_left.1).take
            (lower_right.1 - upper_left.1)) := by
    intro s hs
    rw [List.mem_map] at hs
    obtain ⟨i, hi, rfl⟩ := hs
    rw [List.mem_range] at hi
    have h5 : (sp + i + 1) * stride ≤ (sp + np) * stride :=
      Nat.mul_le_mul_right stride (by omega)
    have h6 : (sp + i + 1) * stride = (sp + i) * stride + stride := by ring
    have hslen : ((buffer.drop ((sp + i) * stride)).take stride).length
        = stride := by
      rw [List.length_take, List.length_drop]
      omega
    unfold sliceRange
    rw [if_pos ⟨hx, by rw [hslen]; exact hxw⟩]
  unfold flushWrites
  rw [if_neg (Nat.pos_iff_ne_zero.mp hw), if_neg (Nat.not_lt.mpr hy)]
  rw [hdrop, htake, hpages, optionTraverse_eq_map _ _ _ hslices]
  rw [List.map_map]
  rfl

/-- C4 (witness): the theorem applied to a 32-byte buffer of stride 16 with
corners (2,0) and (10,8): two pages, columns 2..10 of each 16-byte row. -/
theorem flushWrites_page_range_witness :
    (0 : Nat) < 16
    ∧ ((2, 0) : Nat × Nat).2 ≤ ((10, 8) : Nat × Nat).2
    ∧ ((2, 0) : Nat × Nat).1 ≤ ((10, 8) : Nat × Nat).1
    ∧ ((10, 8) : Nat × Nat).1 ≤ 16
    ∧ (((2, 0) : Nat × Nat).2 / 8
        + ((((10, 8) : Nat × Nat).2 - ((2, 0) : Nat × Nat).2) / 8 + 1)) * 16
        ≤ (List.replicate 32 3).length
    ∧ flushWrites (List.replicate 32 3) 16 (2, 0) (10, 8)
      = some ((List.range ((((10, 8) : Nat × Nat).2
            - ((2, 0) : Nat × Nat).2) / 8 + 1)).map
          (fun i =>
            ((((List.replicate 32 3).drop ((((2, 0) : Nat × Nat).2 / 8 + i)
                * 16)).take 16).drop ((2, 0) : Nat × Nat).1).take
              (((10, 8) : Nat × Nat).1 - ((2, 0) : Nat × Nat).1))) :=
  ⟨by decide, by decide, by decide, by decide, by decide,
   flushWrites_page_range (List.replicate 32 3) 16 (2, 0) (10, 8)
     (by decide) (by decide) (by decide) (by decide) (by decide)⟩

/-- C5 (counterexample): the claim that with stride 16, corners (0,0) and
(16,8), `flush_buffer_chunks` issues exactly one page write (because
`num_pages` would be `(8-0)/8+1 = 1`) is false: the code computes
`num_pages = (8-0)/8+1 = 2`, and on a 32-byte buffer of stride 16 it issues
two 16-byte page writes, not one. -/
theorem flush_not_single_write_cex :
    flushWrites (List.replicate 32 5) 16 (0, 0) (16, 8)
      = some [List.replicate 16 5, List.replicate 16 5]
    ∧ [List.replicate (16 : Nat) (5 : Nat),
       List.replicate 16 5].length ≠ 1
    ∧ (8 - 0) / 8 + 1 ≠ 1 := by
  refine ⟨by decide, by decide, by decide⟩

/-- C5 (amended): the code computes `starting_page = 0` but
`num_pages = (8-0)/8+1 = 2`; given a buffer that is a single 16-byte row,
`chunks(16)` yields one chunk only, so `take(num_pages)` is cut short and
`flush_buffer_chunks` issues exactly one page write consisting of the full
16-byte row. -/
theorem flush_single_page_amended (b : List Nat) (h : b.length = 16) :
    flushWrites b 16 (0, 0) (16, 8) = some [b] := by
  cases b with
  | nil => simp at h
  | cons x xs =>
    have ht : (x :: xs).take 16 = x :: xs := List.take_of_length_le h.le
    have hd : (x :: xs).drop 16 = [] := List.drop_eq_nil_of_le h.le
    have hs : sliceRange (x :: xs) 0 16 = some (x :: xs) := by
      unfold sliceRange
      rw [if_pos ⟨Nat.zero_le 16, h.ge⟩]
      rw [List.drop_zero]
      rw [show (16 - 0 : Nat) = 16 from rfl, ht]
    show optionTraverse (fun s => sliceRange s 0 16)
        (((listChunks (x :: xs) 16).drop 0).take 2) = some [x :: xs]
    rw [listChunks_cons (by norm_num : (0 : Nat) < 16), ht, hd, listChunks_nil]
    show optionTraverse (fun s => sliceRange s 0 16) [x :: xs] = some [x :: xs]
    simp only [optionTraverse, hs]

/-- C5 (amended, witness): the amended theorem applied to the 16-byte buffer
of nines. -/
theorem flush_single_page_amended_witness :
    (List.replicate 16 9).length = 16
    ∧ flushWrites (List.replicate 16 9) 16 (0, 0) (16, 8)
      = some [List.replicate 16 9] :=
  ⟨by decide, flush_single_page_amended (List.replicate 16 9) (by decide)⟩

/-- When every selected page is long enough for the column slice, the
`try_for_each` loop never panics: it succeeds slicing every page and its
outcome is exactly that of sending the sliced writes in order. -/
theorem flushSend_of_slices (lo hi : Nat) (hlohi : lo ≤ hi) :
    ∀ (pages : List (List Nat)),
      (∀ s ∈ pages, hi ≤ s.length) →
      ∀ n : Nat,
      ∃ ws, optionTraverse (fun s => sliceRange s lo hi) pages = some ws
        ∧ ∀ sched, flushSend sched lo hi n pages
            = some (trySendData sched n ws) := by
  intro pages
  induction pages with
  | nil =>
    intro _ n
    exact ⟨[], rfl, fun sched => rfl⟩
  | cons s ss ih =>
    intro hlen n
    have hs : sliceRange s lo hi = some ((s.drop lo).take (hi - lo)) := by
      unfold sliceRange
      rw [if_pos ⟨hlohi, hlen s (List.mem_cons_self s ss)⟩]
    obtain ⟨ws, hws, hrun⟩ :=
      ih (fun x hx => hlen x (List.mem_cons_of_mem s hx)) (n + 1)
    refine ⟨(s.drop lo).take (hi - lo) :: ws, ?_, ?_⟩
    · simp only [optionTraverse, hs, hws]
    · intro sched
      simp only [flushSend, hs]
      cases hsched : sched n with
      | some e => simp only [trySendData, hsched]
      | none => simp only [trySendData, hsched, hrun sched]

/-- C10 (counterexample): the claim's preconditions do not rule out a stride
of zero, yet `slice::chunks(0)` panics in Rust: with `buffer = []`,
`stride = 0`, corners (0,0) and (0,0), all the claimed preconditions hold
(coordinates ordered per axis; every selected chunk — there are none — is
long enough), but `flush_buffer_chunks` panics instead of returning the
sink's result. -/
theorem flush_zero_stride_cex :
    ((0, 0) : Nat × Nat).2 ≤ ((0, 0) : Nat × Nat).2
    ∧ ((0, 0) : Nat × Nat).1 ≤ ((0, 0) : Nat × Nat).1
    ∧ (∀ s ∈ ((listChunks ([] : List Nat) 0).drop (0 / 8)).take
        ((0 - 0) / 8 + 1), ((0, 0) : Nat × Nat).1 ≤ s.length)
    ∧ flush_buffer_chunks (fun _ => none) [] 0 (0, 0) (0, 0) = none := by
  refine ⟨Nat.le_refl 0, Nat.le_refl 0, ?_, rfl⟩
  intro s _
  exact Nat.zero_le _

/-- C10 (amended): with the additional precondition `stride > 0` (ruling out
the `chunks(0)` panic), and under the claim's preconditions —
`upper_left ≤ lower_right` per axis and every buffer chunk selected by the
computed page range at least `lower_right.x` long — `flush_buffer_chunks` is
total: the subtraction and the per-page column slicing are in bounds, and
the function returns exactly the sink's result on the sliced page writes. -/
theorem flush_total_amended (buffer : List Nat) (stride : Nat)
    (upper_left lower_right : Nat × Nat)
    (hw : 0 < stride)
    (hy : upper_left.2 ≤ lower_right.2)
    (hx : upper_left.1 ≤ lower_right.1)
    (hchunks : ∀ s ∈ ((listChunks buffer stride).drop (upper_left.2 / 8)).take
        ((lower_right.2 - upper_left.2) / 8 + 1),
        lower_right.1 ≤ s.length) :
    ∃ ws, flushWrites buffer stride upper_left lower_right = some ws
      ∧ ∀ sched, flush_buffer_chunks sched buffer stride upper_left lower_right
          = some (trySendData sched 0 ws) := by
  have h1 : ¬ (stride = 0) := Nat.pos_iff_ne_zero.mp hw
  have h2 : ¬ (lower_right.2 < upper_left.2) := Nat.not_lt.mpr hy
  unfold flushWrites flush_buffer_chunks
  simp only [if_neg h1, if_neg h2]
  exact flushSend_of_slices upper_left.1 lower_right.1 hx _ hchunks 0

/-- C10 (amended, witness): the amended theorem applied to the 3-byte buffer
[1,2,3] of stride 3 with corners (0,0) and (2,0). -/
theorem flush_total_amended_witness :
    (0 : Nat) < 3
    ∧ ((0, 0) : Nat × Nat).2 ≤ ((2, 0) : Nat × Nat).2
    ∧ ((0, 0) : Nat × Nat).1 ≤ ((2, 0) : Nat × Nat).1
    ∧ (∀ s ∈ ((listChunks [1, 2, 3] 3).drop (((0, 0) : Nat × Nat).2 / 8)).take
        ((((2, 0) : Nat × Nat).2 - ((0, 0) : Nat × Nat).2) / 8 + 1),
        ((2, 0) : Nat × Nat).1 ≤ s.length)
    ∧ ∃ ws, flushWrites [1, 2, 3] 3 (0, 0) (2, 0) = some ws
        ∧ ∀ sched, flush_buffer_chunks sched [1, 2, 3] 3 (0, 0) (2, 0)
            = some (trySendData sched 0 ws) :=
  ⟨by decide, by decide, by decide, by decide,
   flush_total_amended [1, 2, 3] 3 (0, 0) (2, 0)
     (by decide) (by decide) (by decide) (by decide)⟩
